import Mathlib

/-!
Shallow embedding of the scroll-driven multimedia experience
(five-scene scroll narrative: timeline, granular audio engine, overlay
reveal grids, particle convergence).

Numbers that the TypeScript source computes with IEEE doubles are modelled
with exact rationals, and with reals where the source calls transcendental
functions (`Math.sin`, `Math.sqrt`), so each claim is settled against the
exact arithmetic of the source expressions.
-/

/-- The `smoothstep` easing `t * t * (3 - 2 * t)`, defined identically in
AccumulationScene.tsx, InventoryScene.tsx and P5Overlay.tsx. -/
def smoothstep {α : Type} [LinearOrderedField α] (t : α) : α := t * t * (3 - 2 * t)

/-- The `clamp01` from P5Overlay.tsx: `Math.max(0, Math.min(1, v))`. -/
def clamp01 {α : Type} [LinearOrderedField α] (v : α) : α := max 0 (min 1 v)

/-- The `GrainConfig` record from the audio hook (AccumulationScene.tsx part 2). -/
structure GrainConfig where
  density : ℚ
  grainDuration : ℚ
  pitchRange : ℚ × ℚ
  panSpread : ℚ
  amplitude : ℚ
  filterFreq : ℚ
  filterQ : ℚ
  reverbWet : ℚ
  deriving Repr, DecidableEq

/-- The five per-scene grain parameter sets `GRAIN_CONFIGS`. -/
def GRAIN_CONFIGS : List GrainConfig := [
  { density := 3, grainDuration := 12/1000, pitchRange := (8/10, 15/10), panSpread := 6/10,
    amplitude := 3/100, filterFreq := 2000, filterQ := 2, reverbWet := 15/100 },
  { density := 8, grainDuration := 25/1000, pitchRange := (5/10, 2), panSpread := 1,
    amplitude := 25/1000, filterFreq := 1200, filterQ := 4, reverbWet := 3/10 },
  { density := 25, grainDuration := 15/1000, pitchRange := (9/10, 11/10), panSpread := 3/10,
    amplitude := 2/100, filterFreq := 800, filterQ := 3/2, reverbWet := 2/10 },
  { density := 6, grainDuration := 4/100, pitchRange := (1, 15/10), panSpread := 4/10,
    amplitude := 35/1000, filterFreq := 3000, filterQ := 6, reverbWet := 55/100 },
  { density := 18, grainDuration := 45/1000, pitchRange := (6/10, 12/10), panSpread := 8/10,
    amplitude := 25/1000, filterFreq := 1500, filterQ := 1, reverbWet := 45/100 }]

/-- Result record of `getSceneBlend`. -/
structure SceneBlend where
  scene : ℕ
  blend : ℚ
  deriving Repr, DecidableEq

/-- The `transitionWidth = 0.02` from `getSceneBlend`. -/
def transitionWidth : ℚ := 2/100

/-- The tail of the `boundaries` array `[0.03, 0.20, 0.37, 0.54, 0.71, 0.86]`:
`boundaries[i + 1]` is the segment end used by loop iteration `i`. -/
def segEnds : List ℚ := [20/100, 37/100, 54/100, 71/100, 86/100]

/-- The scan loop of `getSceneBlend`: iteration `i` looks at
`segEnd = boundaries[i+1]` and `transStart = segEnd - transitionWidth`;
falling out of the loop yields the final scene. -/
def scanSegments (progress : ℚ) : ℕ → List ℚ → SceneBlend
  | _, [] => ⟨GRAIN_CONFIGS.length - 1, 0⟩
  | i, segEnd :: rest =>
    if progress < segEnd - transitionWidth then ⟨i, 0⟩
    else if progress < segEnd then
      ⟨i, min (max ((progress - (segEnd - transitionWidth)) / transitionWidth) 0) 1⟩
    else scanSegments progress (i + 1) rest

/-- The `getSceneBlend` from AccumulationScene.tsx (audio hook section):
before `boundaries[0] = 0.03` return scene 0, otherwise scan the segments. -/
def getSceneBlend (progress : ℚ) : SceneBlend :=
  if progress < 3/100 then ⟨0, 0⟩
  else scanSegments progress 0 segEnds

/-- Lower end of the stable zone of scene `i`: scene 0 also covers all
progress below the first boundary, scene `i + 1` begins at `boundaries[i+1]`. -/
def sceneStableLo : ℕ → ℚ
  | 0 => 0
  | i + 1 => segEnds.getD i 1

lemma clampQ_bounds (x : ℚ) : 0 ≤ min (max x 0) 1 ∧ min (max x 0) 1 ≤ 1 :=
  ⟨le_min (le_max_right x 0) zero_le_one, min_le_right _ _⟩

lemma getSceneBlend_def (p : ℚ) :
    getSceneBlend p =
      if p < 3/100 then ⟨0, 0⟩
      else scanSegments p 0 [20/100, 37/100, 54/100, 71/100, 86/100] := rfl

lemma scanSegments_cons (p : ℚ) (i : ℕ) (e : ℚ) (rest : List ℚ) :
    scanSegments p i (e :: rest) =
      if p < e - 2/100 then ⟨i, 0⟩
      else if p < e then
        ⟨i, min (max ((p - (e - 2/100)) / (2/100)) 0) 1⟩
      else scanSegments p (i + 1) rest := rfl

lemma getSceneBlend_stable (p : ℚ) (i : ℕ) (hi : i < 5)
    (h1 : sceneStableLo i ≤ p) (h2 : p < segEnds.getD i 1 - transitionWidth) :
    getSceneBlend p = ⟨i, 0⟩ := by
  interval_cases i <;>
    simp only [sceneStableLo, segEnds, transitionWidth, List.getD_cons_zero,
      List.getD_cons_succ] at h1 h2
  · rcases lt_or_le p (3/100) with h | h
    · rw [getSceneBlend_def, if_pos h]
    · rw [getSceneBlend_def, if_neg (not_lt.mpr h), scanSegments_cons,
        if_pos (by linarith : p < 20/100 - 2/100)]
  · rw [getSceneBlend_def, if_neg (by linarith : ¬ p < 3/100), scanSegments_cons,
      if_neg (by linarith : ¬ p < 20/100 - 2/100), if_neg (by linarith : ¬ p < 20/100),
      scanSegments_cons, if_pos (by linarith : p < 37/100 - 2/100)]
  · rw [getSceneBlend_def, if_neg (by linarith : ¬ p < 3/100), scanSegments_cons,
      if_neg (by linarith : ¬ p < 20/100 - 2/100), if_neg (by linarith : ¬ p < 20/100),
      scanSegments_cons, if_neg (by linarith : ¬ p < 37/100 - 2/100),
      if_neg (by linarith : ¬ p < 37/100),
      scanSegments_cons, if_pos (by linarith : p < 54/100 - 2/100)]
  · rw [getSceneBlend_def, if_neg (by linarith : ¬ p < 3/100), scanSegments_cons,
      if_neg (by linarith : ¬ p < 20/100 - 2/100), if_neg (by linarith : ¬ p < 20/100),
      scanSegments_cons, if_neg (by linarith : ¬ p < 37/100 - 2/100),
      if_neg (by linarith : ¬ p < 37/100),
      scanSegments_cons, if_neg (by linarith : ¬ p < 54/100 - 2/100),
      if_neg (by linarith : ¬ p < 54/100),
      scanSegments_cons, if_pos (by linarith : p < 71/100 - 2/100)]
  · rw [getSceneBlend_def, if_neg (by linarith : ¬ p < 3/100), scanSegments_cons,
      if_neg (by linarith : ¬ p < 20/100 - 2/100), if_neg (by linarith : ¬ p < 20/100),
      scanSegments_cons, if_neg (by linarith : ¬ p < 37/100 - 2/100),
      if_neg (by linarith : ¬ p < 37/100),
      scanSegments_cons, if_neg (by linarith : ¬ p < 54/100 - 2/100),
      if_neg (by linarith : ¬ p < 54/100),
      scanSegments_cons, if_neg (by linarith : ¬ p < 71/100 - 2/100),
      if_neg (by linarith : ¬ p < 71/100),
      scanSegments_cons, if_pos (by linarith : p < 86/100 - 2/100)]

lemma getSceneBlend_transition (p : ℚ) (i : ℕ) (hi : i < 5)
    (h1 : segEnds.getD i 1 - transitionWidth ≤ p) (h2 : p < segEnds.getD i 1) :
    getSceneBlend p =
      ⟨i, min (max ((p - (segEnds.getD i 1 - transitionWidth)) / transitionWidth) 0) 1⟩ := by
  interval_cases i <;>
    simp only [segEnds, transitionWidth, List.getD_cons_zero, List.getD_cons_succ] at h1 h2 ⊢
  · rw [getSceneBlend_def, if_neg (by linarith : ¬ p < 3/100), scanSegments_cons,
      if_neg (by linarith : ¬ p < 20/100 - 2/100), if_pos (by linarith : p < 20/100)]
  · rw [getSceneBlend_def, if_neg (by linarith : ¬ p < 3/100), scanSegments_cons,
      if_neg (by linarith : ¬ p < 20/100 - 2/100), if_neg (by linarith : ¬ p < 20/100),
      scanSegments_cons, if_neg (by linarith : ¬ p < 37/100 - 2/100),
      if_pos (by linarith : p < 37/100)]
  · rw [getSceneBlend_def, if_neg (by linarith : ¬ p < 3/100), scanSegments_cons,
      if_neg (by linarith : ¬ p < 20/100 - 2/100), if_neg (by linarith : ¬ p < 20/100),
      scanSegments_cons, if_neg (by linarith : ¬ p < 37/100 - 2/100),
      if_neg (by linarith : ¬ p < 37/100),
      scanSegments_cons, if_neg (by linarith : ¬ p < 54/100 - 2/100),
      if_pos (by linarith : p < 54/100)]
  · rw [getSceneBlend_def, if_neg (by linarith : ¬ p < 3/100), scanSegments_cons,
      if_neg (by linarith : ¬ p < 20/100 - 2/100), if_neg (by linarith : ¬ p < 20/100),
      scanSegments_cons, if_neg (by linarith : ¬ p < 37/100 - 2/100),
      if_neg (by linarith : ¬ p < 37/100),
      scanSegments_cons, if_neg (by linarith : ¬ p < 54/100 - 2/100),
      if_neg (by linarith : ¬ p < 54/100),
      scanSegments_cons, if_neg (by linarith : ¬ p < 71/100 - 2/100),
      if_pos (by linarith : p < 71/100)]
  · rw [getSceneBlend_def, if_neg (by linarith : ¬ p < 3/100), scanSegments_cons,
      if_neg (by linarith : ¬ p < 20/100 - 2/100), if_neg (by linarith : ¬ p < 20/100),
      scanSegments_cons, if_neg (by linarith : ¬ p < 37/100 - 2/100),
      if_neg (by linarith : ¬ p < 37/100),
      scanSegments_cons, if_neg (by linarith : ¬ p < 54/100 - 2/100),
      if_neg (by linarith : ¬ p < 54/100),
      scanSegments_cons, if_neg (by linarith : ¬ p < 71/100 - 2/100),
      if_neg (by linarith : ¬ p < 71/100),
      scanSegments_cons, if_neg (by linarith : ¬ p < 86/100 - 2/100),
      if_pos (by linarith : p < 86/100)]

/-- C1: for progress in `[0,1]`, `getSceneBlend` maps the stable zone of scene
`i` to `{scene := i, blend := 0}`, maps the trailing transition band of scene
`i` (within `transitionWidth` of its exit boundary) to scene `i` with blend
`(progress - transitionStart) / transitionWidth` clamped to `[0,1]`, and the
blend is monotonically non-decreasing through the transition band. -/
theorem getSceneBlend_piecewise (p q : ℚ) (i : ℕ) (hi : i < 5)
    (hp0 : 0 ≤ p) (hp1 : p ≤ 1) :
    (sceneStableLo i ≤ p → p < segEnds.getD i 1 - transitionWidth →
      getSceneBlend p = ⟨i, 0⟩) ∧
    (segEnds.getD i 1 - transitionWidth ≤ p → p < segEnds.getD i 1 →
      getSceneBlend p =
        ⟨i, min (max ((p - (segEnds.getD i 1 - transitionWidth)) / transitionWidth) 0) 1⟩ ∧
      0 ≤ (getSceneBlend p).blend ∧ (getSceneBlend p).blend ≤ 1) ∧
    (segEnds.getD i 1 - transitionWidth ≤ p → p ≤ q → q < segEnds.getD i 1 →
      (getSceneBlend p).blend ≤ (getSceneBlend q).blend) := by
  have htw : (0:ℚ) < transitionWidth := by norm_num [transitionWidth]
  refine ⟨fun h1 h2 => getSceneBlend_stable p i hi h1 h2, fun h1 h2 => ?_, fun h1 hpq h2 => ?_⟩
  · rw [getSceneBlend_transition p i hi h1 h2]
    exact ⟨rfl, (clampQ_bounds _).1, (clampQ_bounds _).2⟩
  · rw [getSceneBlend_transition p i hi h1 (lt_of_le_of_lt hpq h2),
      getSceneBlend_transition q i hi (le_trans h1 hpq) h2]
    exact min_le_min (max_le_max ((div_le_div_iff_of_pos_right htw).mpr (by linarith)) le_rfl)
      le_rfl

/-- Witness for C1: `p = 0.19` sits in the I→II transition band (scene index
0, band `[0.18, 0.20)`), and the blend there is the clamped value `1/2`. -/
theorem getSceneBlend_piecewise_witness :
    getSceneBlend (19/100) =
      ⟨0, min (max (((19:ℚ)/100 - (segEnds.getD 0 1 - transitionWidth)) / transitionWidth) 0) 1⟩ :=
  ((getSceneBlend_piecewise (19/100) (19/100) 0 (by norm_num) (by norm_num) (by norm_num)).2.1
    (by norm_num [segEnds, transitionWidth])
    (by norm_num [segEnds, transitionWidth])).1

/-- Fade-in factor of the Decision scene group (`DecisionGroup` in the 3D
orchestrator): `progress < 0.18 ? 0 : min(1, (progress - 0.18) / 0.04)`. -/
def decisionGroupFadeIn (progress : ℚ) : ℚ :=
  if progress < 18/100 then 0 else min 1 ((progress - 18/100) / (4/100))

/-- C7: at `progress = 0.185` the timeline returns scene index 0 (Inventory)
with blend exactly `(0.185 - 0.18) / 0.02 = 1/4`, and the
visibility fade-in factor of the Decision group is already positive. -/
theorem progress_0185_scene_blend :
    getSceneBlend (185/1000) = ⟨0, 1/4⟩ ∧ 0 < decisionGroupFadeIn (185/1000) := by
  constructor
  · norm_num [getSceneBlend, scanSegments, segEnds, transitionWidth]
  · norm_num [decisionGroupFadeIn, lt_min_iff]

lemma get_opt_isSome_of_lt {α : Type} (l : List α) (n : ℕ) (h : n < l.length) :
    (l.get? n).isSome = true := by
  induction l generalizing n with
  | nil => simp at h
  | cons a t ih =>
    cases n with
    | zero => rfl
    | succ m => exact ih m (by simpa using h)

lemma scanSegments_props (p : ℚ) (i : ℕ) (l : List ℚ) :
    ((scanSegments p i l).scene < i + l.length ∨
      (scanSegments p i l).scene = GRAIN_CONFIGS.length - 1) ∧
    0 ≤ (scanSegments p i l).blend ∧ (scanSegments p i l).blend ≤ 1 := by
  induction l generalizing i with
  | nil => exact ⟨Or.inr rfl, le_refl 0, zero_le_one⟩
  | cons e rest ih =>
    rw [scanSegments_cons]
    rcases lt_or_le p (e - 2/100) with h1 | h1
    · rw [if_pos h1]
      exact ⟨Or.inl (show i < i + (rest.length + 1) by omega), le_refl 0, zero_le_one⟩
    · rcases lt_or_le p e with h2 | h2
      · rw [if_neg (not_lt.mpr h1), if_pos h2]
        exact ⟨Or.inl (show i < i + (rest.length + 1) by omega),
          (clampQ_bounds _).1, (clampQ_bounds _).2⟩
      · rw [if_neg (not_lt.mpr h1), if_neg (not_lt.mpr h2)]
        obtain ⟨hs, hb0, hb1⟩ := ih (i + 1)
        refine ⟨?_, hb0, hb1⟩
        rcases hs with hs | hs
        · exact Or.inl (show (scanSegments p (i + 1) rest).scene < i + (rest.length + 1) by
            have := hs; omega)
        · exact Or.inr hs

/-- C10: for every rational progress value, including values below 0 and above
1, `getSceneBlend` yields a scene index inside `GRAIN_CONFIGS` and a blend in
`[0,1]`, so both the `GRAIN_CONFIGS[scene]` and the
`GRAIN_CONFIGS[min(scene+1, length-1)]` lookups are in bounds. -/
theorem getSceneBlend_total_safe (p : ℚ) :
    (getSceneBlend p).scene < GRAIN_CONFIGS.length ∧
    0 ≤ (getSceneBlend p).blend ∧ (getSceneBlend p).blend ≤ 1 ∧
    (GRAIN_CONFIGS.get? (getSceneBlend p).scene).isSome = true ∧
    (GRAIN_CONFIGS.get? (min ((getSceneBlend p).scene + 1)
      (GRAIN_CONFIGS.length - 1))).isSome = true := by
  have hlen5 : GRAIN_CONFIGS.length = 5 := rfl
  have hmain : (getSceneBlend p).scene < 5 ∧
      0 ≤ (getSceneBlend p).blend ∧ (getSceneBlend p).blend ≤ 1 := by
    rcases lt_or_le p (3/100) with hc | hc
    · rw [getSceneBlend_def, if_pos hc]
      exact ⟨by norm_num, le_refl 0, zero_le_one⟩
    · rw [getSceneBlend_def, if_neg (not_lt.mpr hc),
        show [(20:ℚ)/100, 37/100, 54/100, 71/100, 86/100] = segEnds from rfl]
      obtain ⟨hs, hb0, hb1⟩ := scanSegments_props p 0 segEnds
      refine ⟨?_, hb0, hb1⟩
      rcases hs with hs | hs
      · simpa [segEnds] using hs
      · rw [hs, hlen5]; norm_num
  obtain ⟨hsc, hb0, hb1⟩ := hmain
  refine ⟨by rw [hlen5]; exact hsc, hb0, hb1,
    get_opt_isSome_of_lt _ _ (by rw [hlen5]; exact hsc),
    get_opt_isSome_of_lt _ _ ?_⟩
  rw [hlen5]
  have : min ((getSceneBlend p).scene + 1) (GRAIN_CONFIGS.length - 1) ≤ 4 := by
    rw [hlen5]
    exact min_le_right _ _
  omega

/-!
Granular audio engine lifecycle (`useGranularAudio`): `start`, `stop` and the
self-rescheduling `scheduleNextGrain` timer chain, modelled as a state machine
driven by event-loop events.  `stop` ramps the master gain to 0 over 1.5 s
(`linearRampToValueAtTime(0, now + 1.5)`) and tears the graph down after
1600 ms.
-/

/-- Observable engine state: the `isPlayingRef` guard flag, whether a grain
timer is pending (`grainTimerRef`), the number of grains spawned so far and
whether the audio graph has been built. -/
structure EngineState where
  isPlaying : Bool
  timerPending : Bool
  grainsSpawned : ℕ
  graphBuilt : Bool
  deriving Repr, DecidableEq

/-- The engine before any user gesture. -/
def idleEngine : EngineState := ⟨false, false, 0, false⟩

/-- One run of `scheduleNextGrain`: if `isPlayingRef` is false it returns at
once (no grain, no rescheduled timer); otherwise it spawns one grain and arms
the next timer. -/
def scheduleNextGrainStep (s : EngineState) : EngineState :=
  if s.isPlaying = false then s
  else { s with grainsSpawned := s.grainsSpawned + 1, timerPending := true }

/-- The `start()`: if `initAudio` fails (platform audio API unavailable) it
returns before touching any state; otherwise it builds the graph, raises the
playing flag and begins the grain scheduling loop. -/
def startStep (platformOk : Bool) (s : EngineState) : EngineState :=
  if platformOk = false then s
  else scheduleNextGrainStep { s with isPlaying := true, graphBuilt := true }

/-- The `stop()`: lowers the playing flag and clears the pending grain timer
immediately (`clearTimeout`). -/
def stopStep (s : EngineState) : EngineState :=
  { s with isPlaying := false, timerPending := false }

/-- Event-loop events the engine reacts to. -/
inductive EngineEvent
  | timerFire
  | stopCall
  | startCall (platformOk : Bool)
  deriving Repr, DecidableEq

/-- Whether an event is a `start()` call. -/
def EngineEvent.isStart : EngineEvent → Bool
  | .startCall _ => true
  | _ => false

/-- One event-loop step: a firing timer is consumed and runs
`scheduleNextGrain`; a timer that was cancelled never fires. -/
def engineStep (s : EngineState) : EngineEvent → EngineState
  | .timerFire => if s.timerPending then scheduleNextGrainStep { s with timerPending := false } else s
  | .stopCall => stopStep s
  | .startCall ok => startStep ok s

/-- Run the engine over a sequence of event-loop events. -/
def engineRun (s : EngineState) (evs : List EngineEvent) : EngineState :=
  evs.foldl engineStep s

/-- The `stop()` fade time: master gain ramps linearly to 0 over 1.5 seconds. -/
def stopFadeDuration : ℚ := 3/2

/-- The `stop()` teardown delay: the `setTimeout` that closes the context fires
1600 ms after `stop()`. -/
def teardownDelay : ℚ := 8/5

/-- Master gain `dt` seconds after `stop()` was called with gain value `v`:
the linear ramp `linearRampToValueAtTime(0, now + 1.5)`, which holds 0 once
the ramp is complete. -/
def stopFadeGain (v dt : ℚ) : ℚ :=
  if dt < stopFadeDuration then v * (1 - dt / stopFadeDuration) else 0

lemma engineRun_stopped (s : EngineState) (evs : List EngineEvent)
    (hp : s.isPlaying = false) (ht : s.timerPending = false)
    (hno : ∀ e ∈ evs, e.isStart = false) :
    (engineRun s evs).isPlaying = false ∧ (engineRun s evs).timerPending = false ∧
      (engineRun s evs).grainsSpawned = s.grainsSpawned := by
  induction evs generalizing s with
  | nil => exact ⟨hp, ht, rfl⟩
  | cons e rest ih =>
    have hstep : (engineStep s e).isPlaying = false ∧ (engineStep s e).timerPending = false ∧
        (engineStep s e).grainsSpawned = s.grainsSpawned := by
      cases e with
      | timerFire => simp [engineStep, ht, hp]
      | stopCall => simp [engineStep, stopStep, hp]
      | startCall ok =>
        have : EngineEvent.isStart (.startCall ok) = false := hno _ (by simp)
        simp [EngineEvent.isStart] at this
    obtain ⟨h1, h2, h3⟩ := hstep
    have hrest := ih (engineStep s e) h1 h2 (fun x hx => hno x (by simp [hx]))
    exact ⟨hrest.1, hrest.2.1, by rw [show engineRun s (e :: rest) =
      engineRun (engineStep s e) rest from rfl, hrest.2.2, h3]⟩

/-- C2: after `stop()` the pending grain timer is cancelled immediately and,
for any further sequence of event-loop events that contains no new `start()`
call, no further grain is spawned and the engine stays non-playing; moreover
the master-gain fade (1.5 s) completes strictly before the graph teardown
fires (1.6 s after `stop()`), at which point the ramped gain is exactly 0.
The state `s` is arbitrary, so this covers in particular a `start()`
immediately followed by `stop()`. -/
theorem stop_halts_grains_and_fade_precedes_teardown (s : EngineState)
    (evs : List EngineEvent) (v : ℚ)
    (hno : ∀ e ∈ evs, e.isStart = false) :
    (stopStep s).timerPending = false ∧
    (stopStep s).isPlaying = false ∧
    (engineRun (stopStep s) evs).grainsSpawned = s.grainsSpawned ∧
    (engineRun (stopStep s) evs).isPlaying = false ∧
    stopFadeDuration < teardownDelay ∧
    stopFadeGain v teardownDelay = 0 := by
  have h := engineRun_stopped (stopStep s) evs rfl rfl hno
  refine ⟨rfl, rfl, ?_, h.1, by norm_num [stopFadeDuration, teardownDelay], ?_⟩
  · exact h.2.2
  · rw [stopFadeGain, if_neg (by norm_num [stopFadeDuration, teardownDelay])]

/-- Witness for C2: start the idle engine (which spawns the first grain
synchronously), stop it at once, and let two stale timer events arrive: the
grain count stays at 1 and the fade/teardown ordering facts evaluate. -/
theorem stop_halts_grains_witness :
    (engineRun (stopStep (startStep true idleEngine))
        [.timerFire, .timerFire]).grainsSpawned = (startStep true idleEngine).grainsSpawned ∧
      stopFadeGain (7/10) teardownDelay = 0 :=
  ⟨(stop_halts_grains_and_fade_precedes_teardown (startStep true idleEngine)
      [.timerFire, .timerFire] (7/10) (by decide)).2.2.1,
    (stop_halts_grains_and_fade_precedes_teardown (startStep true idleEngine)
      [.timerFire, .timerFire] (7/10) (by decide)).2.2.2.2.2⟩

/-- C9: when audio-graph construction fails (`initAudio` returns false
because the platform audio API is unavailable), `start()` leaves the engine
state completely unchanged: starting from the idle state the playing flag
stays false, no grain timer is armed, no grain is spawned and no graph is
built. -/
theorem initAudio_failure_inert (s : EngineState) :
    startStep false s = s ∧
    (startStep false idleEngine).isPlaying = false ∧
    (startStep false idleEngine).timerPending = false ∧
    (startStep false idleEngine).grainsSpawned = 0 ∧
    (startStep false idleEngine).graphBuilt = false :=
  ⟨rfl, rfl, rfl, rfl, rfl⟩

/-!
Grain scheduling interval (`scheduleNextGrain`): the next delay is
`Math.max(10, baseInterval + jitter)` with `baseInterval = 1000 / density`
and `jitter = baseInterval * 0.3 * (Math.random() - 0.5)`.
-/

/-- The `baseInterval = 1000 / config.density` (milliseconds). -/
def grainBaseInterval (density : ℚ) : ℚ := 1000 / density

/-- The `nextDelay = Math.max(10, baseInterval + baseInterval * 0.3 * (r - 0.5))`
where `r` stands for the `Math.random()` draw in `[0,1)`. -/
def grainNextDelay (density r : ℚ) : ℚ :=
  max 10 (grainBaseInterval density +
    grainBaseInterval density * (3/10) * (r - 1/2))

/-- C3 counterexample: at density 8 (the Decision scene density) the claimed
lower endpoint `0.7 * (1000/density) = 87.5` ms is never attained: the jitter
factor `0.3 * (r - 0.5)` only reaches ±15% of the base interval, so the delay
never leaves `[106.25, 143.75)`. -/
theorem nextDelay_full_range_cex :
    ¬ ∃ r : ℚ, 0 ≤ r ∧ r < 1 ∧ grainNextDelay 8 r = (7/10) * grainBaseInterval 8 := by
  rintro ⟨r, h0, h1, he⟩
  have hb : grainBaseInterval 8 = 125 := by norm_num [grainBaseInterval]
  rw [grainNextDelay, hb] at he
  have h2 : (10:ℚ) ≤ 125 + 125 * (3/10) * (r - 1/2) := by linarith
  rw [max_eq_right h2] at he
  linarith

/-- C3 amended: each loop iteration spawns one grain and reschedules after
`1000/density` ms plus jitter of up to ±15% of that base interval (the code
multiplies by `0.3 * (r - 0.5)` with `r ∈ [0,1)`), floored at 10 ms: whenever
`0.85 * base ≥ 10`, the delay lies in `[0.85 * base, 1.15 * base)` and every
value of that interval is attained for some random draw. -/
theorem grainNextDelay_jitter_range (density r : ℚ) (hd : 0 < density)
    (hb : 10 ≤ (85/100) * grainBaseInterval density)
    (hr0 : 0 ≤ r) (hr1 : r < 1) :
    (85/100) * grainBaseInterval density ≤ grainNextDelay density r ∧
    grainNextDelay density r < (115/100) * grainBaseInterval density ∧
    ∀ d : ℚ, (85/100) * grainBaseInterval density ≤ d →
      d < (115/100) * grainBaseInterval density →
      ∃ r2 : ℚ, 0 ≤ r2 ∧ r2 < 1 ∧ grainNextDelay density r2 = d := by
  have hbpos : 0 < grainBaseInterval density := by
    rw [grainBaseInterval]; positivity
  have hbne : grainBaseInterval density ≠ 0 := ne_of_gt hbpos
  have hlow : (85/100) * grainBaseInterval density ≤
      grainBaseInterval density + grainBaseInterval density * (3/10) * (r - 1/2) := by
    nlinarith [mul_nonneg (le_of_lt hbpos) hr0]
  have hhigh : grainBaseInterval density + grainBaseInterval density * (3/10) * (r - 1/2) <
      (115/100) * grainBaseInterval density := by
    nlinarith [mul_lt_mul_of_pos_left hr1 hbpos]
  have h10 : (10:ℚ) ≤ grainBaseInterval density +
      grainBaseInterval density * (3/10) * (r - 1/2) := le_trans hb hlow
  refine ⟨?_, ?_, ?_⟩
  · rw [grainNextDelay, max_eq_right h10]; exact hlow
  · rw [grainNextDelay, max_eq_right h10]; exact hhigh
  · intro d hd1 hd2
    have hx1 : (85/100 : ℚ) ≤ d / grainBaseInterval density := by
      rw [le_div_iff hbpos]; linarith
    have hx2 : d / grainBaseInterval density < 115/100 := by
      rw [div_lt_iff hbpos]; linarith
    refine ⟨(d / grainBaseInterval density - 1) / (3/10) + 1/2, by linarith, by linarith, ?_⟩
    have hinner : grainBaseInterval density + grainBaseInterval density * (3/10) *
        ((d / grainBaseInterval density - 1) / (3/10) + 1/2 - 1/2) = d := by
      field_simp
      ring
    rw [grainNextDelay, hinner, max_eq_right (by linarith : (10:ℚ) ≤ d)]

/-- Witness for C3 (amended): at density 8 and random draw 0 the delay is
106.25 ms, inside `[0.85 * 125, 1.15 * 125)`. -/
theorem grainNextDelay_jitter_range_witness :
    (85/100) * grainBaseInterval 8 ≤ grainNextDelay 8 0 ∧
    grainNextDelay 8 0 < (115/100) * grainBaseInterval 8 :=
  ⟨(grainNextDelay_jitter_range 8 0 (by norm_num) (by norm_num [grainBaseInterval])
      le_rfl (by norm_num)).1,
   (grainNextDelay_jitter_range 8 0 (by norm_num) (by norm_num [grainBaseInterval])
      le_rfl (by norm_num)).2.1⟩

/-!
`spawnGrain`: pitch and stereo pan of a grain.  During the Decision scene
(timeline scene index 1) the pan is deterministically hard-left/hard-right
around the midpoint of the active pitch range; otherwise it is a random value
scaled by the `panSpread` of the config.
-/

/-- Grain pitch: `pitchLow + r * (pitchHigh - pitchLow)` with `r` the
`Math.random()` draw. -/
def grainPitch (config : GrainConfig) (rPitch : ℚ) : ℚ :=
  config.pitchRange.1 + rPitch * (config.pitchRange.2 - config.pitchRange.1)

/-- Grain pan as set by `spawnGrain`: in timeline scene 1,
`pitch < midPitch ? -0.8 : 0.8`; otherwise `(r * 2 - 1) * panSpread`. -/
def grainPan (config : GrainConfig) (progress pitch rPan : ℚ) : ℚ :=
  if (getSceneBlend progress).scene = 1 then
    if pitch < (config.pitchRange.1 + config.pitchRange.2) / 2 then -(8/10) else 8/10
  else (rPan * 2 - 1) * config.panSpread

/-- C8: while the timeline is in the Decision scene (scene index 1) a grain
pans hard-left (−0.8) exactly when its pitch is below the midpoint of the
active pitch range and hard-right (0.8) when at or above it; in every other
scene the pan is the random value `(r*2-1) * panSpread`, which stays within
±`panSpread`. -/
theorem decision_pan_hard_split (config : GrainConfig) (progress pitch rPan : ℚ)
    (hs : 0 ≤ config.panSpread) (hr0 : 0 ≤ rPan) (hr1 : rPan ≤ 1) :
    ((getSceneBlend progress).scene = 1 →
      (pitch < (config.pitchRange.1 + config.pitchRange.2) / 2 →
        grainPan config progress pitch rPan = -(8/10)) ∧
      ((config.pitchRange.1 + config.pitchRange.2) / 2 ≤ pitch →
        grainPan config progress pitch rPan = 8/10)) ∧
    ((getSceneBlend progress).scene ≠ 1 →
      grainPan config progress pitch rPan = (rPan * 2 - 1) * config.panSpread ∧
      |grainPan config progress pitch rPan| ≤ config.panSpread) := by
  constructor
  · intro h1
    constructor
    · intro hlt; rw [grainPan, if_pos h1, if_pos hlt]
    · intro hge; rw [grainPan, if_pos h1, if_neg (not_lt.mpr hge)]
  · intro h1
    rw [grainPan, if_neg h1]
    refine ⟨rfl, ?_⟩
    rw [abs_mul]
    have h2 : |rPan * 2 - 1| ≤ 1 := by
      rw [abs_le]; constructor <;> linarith
    calc |rPan * 2 - 1| * |config.panSpread| ≤ 1 * |config.panSpread| :=
          mul_le_mul_of_nonneg_right h2 (abs_nonneg _)
      _ = config.panSpread := by rw [one_mul, abs_of_nonneg hs]

/-- Witness for C8: at `progress = 0.25` (Decision scene) with the Decision
config pitch range `[0.5, 2.0]`, a grain of pitch 0.6 (below the midpoint
1.25) pans hard-left. -/
theorem decision_pan_hard_split_witness :
    grainPan ⟨8, 25/1000, (5/10, 2), 1, 25/1000, 1200, 4, 3/10⟩ (25/100) (6/10) (1/2)
      = -(8/10) :=
  ((decision_pan_hard_split ⟨8, 25/1000, (5/10, 2), 1, 25/1000, 1200, 4, 3/10⟩
      (25/100) (6/10) (1/2) (by norm_num) (by norm_num) (by norm_num)).1
    (by
      rw [getSceneBlend_stable (25/100) 1 (by norm_num)
        (by norm_num [sceneStableLo, segEnds])
        (by norm_num [segEnds, transitionWidth])])).1
    (by norm_num)

/-!
Derived local scene progress.  The P5 overlay computes, per frame,
`sceneP = clamp01((prog - sceneStart) / sceneSpan)` for each of its five
scene windows.
-/

/-- Overlay inventory window: `clamp01((prog - 0.03) / 0.15)`. -/
def overlayInventoryP (p : ℚ) : ℚ := clamp01 ((p - 3/100) / (15/100))

/-- Overlay decision-tree window: `clamp01((prog - 0.19) / 0.18)`. -/
def overlayDecisionP (p : ℚ) : ℚ := clamp01 ((p - 19/100) / (18/100))

/-- Overlay assembly-streams window: `clamp01((prog - 0.37) / 0.15)`. -/
def overlayAssemblyP (p : ℚ) : ℚ := clamp01 ((p - 37/100) / (15/100))

/-- Overlay verification window: `clamp01((prog - 0.54) / 0.15)`. -/
def overlayVerificationP (p : ℚ) : ℚ := clamp01 ((p - 54/100) / (15/100))

/-- Overlay accumulation window: `clamp01((prog - 0.71) / 0.15)`. -/
def overlayAccumulationP (p : ℚ) : ℚ := clamp01 ((p - 71/100) / (15/100))

lemma clamp01_mem {α : Type} [LinearOrderedField α] (v : α) :
    0 ≤ clamp01 v ∧ clamp01 v ≤ 1 :=
  ⟨le_max_left 0 _, max_le zero_le_one (min_le_left 1 v)⟩

/-- C6: for every progress value (negative, overshooting, or outside any
window) and every window, the derived local scene progress
`clamp01((progress - sceneStart) / sceneSpan)` lies in `[0,1]`; in
particular all five per-scene values the overlay derives each frame do. -/
theorem localSceneProgress_clamped (p start span v : ℚ) :
    (0 ≤ clamp01 v ∧ clamp01 v ≤ 1) ∧
    (0 ≤ clamp01 ((p - start) / span) ∧ clamp01 ((p - start) / span) ≤ 1) ∧
    (0 ≤ overlayInventoryP p ∧ overlayInventoryP p ≤ 1) ∧
    (0 ≤ overlayDecisionP p ∧ overlayDecisionP p ≤ 1) ∧
    (0 ≤ overlayAssemblyP p ∧ overlayAssemblyP p ≤ 1) ∧
    (0 ≤ overlayVerificationP p ∧ overlayVerificationP p ≤ 1) ∧
    (0 ≤ overlayAccumulationP p ∧ overlayAccumulationP p ≤ 1) :=
  ⟨clamp01_mem v, clamp01_mem _, clamp01_mem _, clamp01_mem _, clamp01_mem _,
    clamp01_mem _, clamp01_mem _⟩

/-!
Overlay reveal grids (`drawInventoryGrid`, `drawVerificationGrid`):
persistent `boolean[][]` state that latches cells to `true` as the scan /
ripple frontier passes them, reset to all-`false` only by `windowResized`.
The geometry of the inventory grid is rational; the verification grid compares a
`Math.sqrt` distance, so it is modelled over `ℝ`.
-/

/-- Inventory grid cell size for a `w × h` canvas:
`min(width / (cols + 2), height / (rows + 4))` with 20 columns, 12 rows. -/
def invCellSize (w h : ℚ) : ℚ := min (w / 22) (h / 16)

/-- The `totalCell = cellSize + gap` with `gap = cellSize * 0.25`. -/
def invTotalCell (w h : ℚ) : ℚ := invCellSize w h + invCellSize w h * (25/100)

/-- The `gridW = cols * totalCell`. -/
def invGridW (w h : ℚ) : ℚ := 20 * invTotalCell w h

/-- The `originX = (width - gridW) / 2`. -/
def invOriginX (w h : ℚ) : ℚ := (w - invGridW w h) / 2

/-- Scanner position `scanX = originX + sceneP * (gridW + totalCell * 2)`. -/
def invScanX (w h sceneP : ℚ) : ℚ :=
  invOriginX w h + sceneP * (invGridW w h + invTotalCell w h * 2)

/-- The `scanBand = totalCell * 3`. -/
def invScanBand (w h : ℚ) : ℚ := invTotalCell w h * 3

/-- Horizontal center of the cell in column `col`:
`originX + col * totalCell + cellSize / 2`. -/
def invCellCenterX (w h : ℚ) (col : ℕ) : ℚ :=
  invOriginX w h + col * invTotalCell w h + invCellSize w h / 2

/-- A cell is fully behind the scanner when
`cellCenterX < scanX - scanBand`. -/
def invBehind (w h sceneP : ℚ) (col : ℕ) : Bool :=
  decide (invCellCenterX w h col < invScanX w h sceneP - invScanBand w h)

/-- One frame of `drawInventoryGrid` acting on the `inventoryRevealed` grid:
cells behind the scanner latch to `true`, all others keep their value. -/
def drawInventoryGridReveal (w h sceneP : ℚ) (g : ℕ → ℕ → Bool) : ℕ → ℕ → Bool :=
  fun col row =>
    if col < 20 ∧ row < 12 ∧ invBehind w h sceneP col = true then true else g col row

/-- One frame of `p.draw` as it affects the inventory grid: the routine runs
only when `0.02 ≤ prog ≤ 0.20`, with `sceneP = clamp01((prog - 0.03)/0.15)`. -/
def overlayInventoryFrame (w h prog : ℚ) (g : ℕ → ℕ → Bool) : ℕ → ℕ → Bool :=
  if 2/100 ≤ prog ∧ prog ≤ 20/100 then
    drawInventoryGridReveal w h (overlayInventoryP prog) g
  else g

/-- A sequence of draw frames at the given progress values. -/
def overlayInventoryRun (w h : ℚ) (progs : List ℚ) (g : ℕ → ℕ → Bool) : ℕ → ℕ → Bool :=
  progs.foldl (fun acc prog => overlayInventoryFrame w h prog acc) g

/-- Verification grid cell size: the inventory formula scaled by 0.85. -/
noncomputable def verCellSize (w h : ℝ) : ℝ := min (w / 22) (h / 16) * (85/100)

/-- The `totalCellSize = cellSize + gap`, `gap = cellSize * 0.25`. -/
noncomputable def verTotalCell (w h : ℝ) : ℝ := verCellSize w h + verCellSize w h * (25/100)

/-- The `gridW = 20 * totalCellSize`. -/
noncomputable def verGridW (w h : ℝ) : ℝ := 20 * verTotalCell w h

/-- The `gridH = 12 * totalCellSize`. -/
noncomputable def verGridH (w h : ℝ) : ℝ := 12 * verTotalCell w h

/-- The `originX = (width - gridW) / 2`. -/
noncomputable def verOriginX (w h : ℝ) : ℝ := (w - verGridW w h) / 2

/-- The `originY = (height - gridH) / 2`. -/
noncomputable def verOriginY (w h : ℝ) : ℝ := (h - verGridH w h) / 2

/-- The `maxRadius = sqrt(gridW² + gridH²) / 2`. -/
noncomputable def verMaxRadius (w h : ℝ) : ℝ :=
  Real.sqrt (verGridW w h ^ 2 + verGridH w h ^ 2) / 2

/-- The `rippleRadius = sceneP * maxRadius * 1.2`. -/
noncomputable def verRippleRadius (w h sceneP : ℝ) : ℝ :=
  sceneP * verMaxRadius w h * (12/10)

/-- Euclidean distance from the center of cell `(col, row)` to the grid
center, as computed with `Math.sqrt` in the draw routine. -/
noncomputable def verCellDist (w h : ℝ) (col row : ℕ) : ℝ :=
  Real.sqrt
    ((verOriginX w h + col * verTotalCell w h + verCellSize w h / 2 -
        (verOriginX w h + verGridW w h / 2)) ^ 2 +
      (verOriginY w h + row * verTotalCell w h + verCellSize w h / 2 -
        (verOriginY w h + verGridH w h / 2)) ^ 2)

open Classical in
/-- One frame of `drawVerificationGrid` acting on the `verifiedCells` grid:
cells with `dist < rippleRadius - scanBand` (`scanBand = cellSize * 2.5`)
latch to `true`. -/
noncomputable def drawVerificationGridReveal (w h sceneP : ℝ) (g : ℕ → ℕ → Bool) :
    ℕ → ℕ → Bool :=
  fun col row =>
    if col < 20 ∧ row < 12 ∧
        verCellDist w h col row < verRippleRadius w h sceneP - verCellSize w h * (25/10)
    then true else g col row

open Classical in
/-- One frame of `p.draw` as it affects the verification grid: the routine
runs only when `0.52 ≤ prog ≤ 0.71`, with `sceneP = clamp01((prog - 0.54)/0.15)`. -/
noncomputable def overlayVerificationFrame (w h prog : ℝ) (g : ℕ → ℕ → Bool) :
    ℕ → ℕ → Bool :=
  if 52/100 ≤ prog ∧ prog ≤ 71/100 then
    drawVerificationGridReveal w h (clamp01 ((prog - 54/100) / (15/100))) g
  else g

/-- A sequence of draw frames at the given progress values. -/
noncomputable def overlayVerificationRun (w h : ℝ) (progs : List ℝ) (g : ℕ → ℕ → Bool) :
    ℕ → ℕ → Bool :=
  progs.foldl (fun acc prog => overlayVerificationFrame w h prog acc) g

/-- The `windowResized` discards both grids; the next frame re-initialises them
to all-`false`. -/
def resizeResetGrid : ℕ → ℕ → Bool := fun _ _ => false

lemma overlayInventoryFrame_keep (w h prog : ℚ) (g : ℕ → ℕ → Bool) (c r : ℕ)
    (hg : g c r = true) : overlayInventoryFrame w h prog g c r = true := by
  by_cases hgate : 2/100 ≤ prog ∧ prog ≤ 20/100
  · rw [overlayInventoryFrame, if_pos hgate]
    rw [drawInventoryGridReveal]
    by_cases hcell : c < 20 ∧ r < 12 ∧ invBehind w h (overlayInventoryP prog) c = true
    · rw [if_pos hcell]
    · rw [if_neg hcell]; exact hg
  · rw [overlayInventoryFrame, if_neg hgate]; exact hg

lemma overlayVerificationFrame_keep (w h prog : ℝ) (g : ℕ → ℕ → Bool) (c r : ℕ)
    (hg : g c r = true) : overlayVerificationFrame w h prog g c r = true := by
  by_cases hgate : 52/100 ≤ prog ∧ prog ≤ 71/100
  · rw [overlayVerificationFrame, if_pos hgate]
    rw [drawVerificationGridReveal]
    by_cases hcell : c < 20 ∧ r < 12 ∧
        verCellDist w h c r <
          verRippleRadius w h (clamp01 ((prog - 54/100) / (15/100))) - verCellSize w h * (25/10)
    · rw [if_pos hcell]
    · rw [if_neg hcell]; exact hg
  · rw [overlayVerificationFrame, if_neg hgate]; exact hg

lemma overlayInventoryRun_keep (w h : ℚ) (progs : List ℚ) (g : ℕ → ℕ → Bool) (c r : ℕ)
    (hg : g c r = true) : overlayInventoryRun w h progs g c r = true := by
  induction progs generalizing g with
  | nil => exact hg
  | cons p rest ih => exact ih _ (overlayInventoryFrame_keep w h p g c r hg)

lemma overlayVerificationRun_keep (w h : ℝ) (progs : List ℝ) (g : ℕ → ℕ → Bool) (c r : ℕ)
    (hg : g c r = true) : overlayVerificationRun w h progs g c r = true := by
  induction progs generalizing g with
  | nil => exact hg
  | cons p rest ih => exact ih _ (overlayVerificationFrame_keep w h p g c r hg)

/-- C4: within one scene instance (no resize), the overlay reveal flags are
monotone: once a draw frame latches a cell of `inventoryRevealed` or
`verifiedCells` to `true`, any sequence of further draw frames, at arbitrary
progress values, leaves it `true`; the only reset is the `windowResized`
re-initialisation, which yields the all-`false` grid. -/
theorem reveal_flags_monotone (w h : ℚ) (wr hr : ℝ) (progs : List ℚ) (progsR : List ℝ)
    (g gv : ℕ → ℕ → Bool) (c r : ℕ)
    (hg : g c r = true) (hgv : gv c r = true) :
    overlayInventoryRun w h progs g c r = true ∧
    overlayVerificationRun wr hr progsR gv c r = true ∧
    resizeResetGrid c r = false :=
  ⟨overlayInventoryRun_keep w h progs g c r hg,
   overlayVerificationRun_keep wr hr progsR gv c r hgv, rfl⟩

/-- Witness for C4: a cell already revealed stays revealed across two more
frames (one inside the inventory window, one outside), and the resize reset
grid reads `false`. -/
theorem reveal_flags_monotone_witness :
    overlayInventoryRun 1280 800 [1/10, 1/2] (fun _ _ => true) 0 0 = true ∧
      resizeResetGrid 0 0 = false :=
  ⟨(reveal_flags_monotone 1280 800 1280 800 [1/10, 1/2] [] (fun _ _ => true)
      (fun _ _ => true) 0 0 rfl rfl).1,
   (reveal_flags_monotone 1280 800 1280 800 [1/10, 1/2] [] (fun _ _ => true)
      (fun _ _ => true) 0 0 rfl rfl).2.2⟩

/-!
Particle convergence.  `InventoryObjects` blends each instance position as
`scattered + (grid - scattered) * smoothstep(sceneP)`; `AccumulationStars`
does the same per flat-array component but superimposes a time-based twinkle
`Math.sin(time * 2 + i * 1.7) * 0.1` on x (and half of it on y).
-/

/-- The `InventoryObjects` local progress:
`Math.max(0, Math.min(1, (progress - 0.03) / 0.15))`. -/
def inventoryLocalP (progress : ℚ) : ℚ := max 0 (min 1 ((progress - 3/100) / (15/100)))

/-- The `InventoryObjects` instance position component `k` (`k = 3i + axis`):
`scattered[k] + (grid[k] - scattered[k]) * converge` with
`converge = smoothstep(sceneP)`. -/
def inventoryPosComp (scattered grid : ℕ → ℚ) (progress : ℚ) (k : ℕ) : ℚ :=
  scattered k + (grid k - scattered k) * smoothstep (inventoryLocalP progress)

/-- The `AccumulationStars` local progress:
`Math.max(0, Math.min(1, (progress - 0.71) / 0.15))`. -/
noncomputable def accumLocalP (progress : ℝ) : ℝ :=
  max 0 (min 1 ((progress - 71/100) / (15/100)))

/-- Twinkle term of star `i` at elapsed time `time`:
`Math.sin(time * 2 + i * 1.7) * 0.1`. -/
noncomputable def accumTwinkle (time : ℝ) (i : ℕ) : ℝ :=
  Real.sin (time * 2 + (i : ℝ) * (17/10)) * (1/10)

/-- x-component of star `i`:
`scattered[si] + (targets[si] - scattered[si]) * converge + twinkle`. -/
noncomputable def accumStarX (scattered targets : ℕ → ℝ) (time progress : ℝ) (i : ℕ) : ℝ :=
  scattered (i * 3) + (targets (i * 3) - scattered (i * 3)) * smoothstep (accumLocalP progress) +
    accumTwinkle time i

/-- y-component of star `i`: the blend plus `twinkle * 0.5`. -/
noncomputable def accumStarY (scattered targets : ℕ → ℝ) (time progress : ℝ) (i : ℕ) : ℝ :=
  scattered (i * 3 + 1) +
    (targets (i * 3 + 1) - scattered (i * 3 + 1)) * smoothstep (accumLocalP progress) +
    accumTwinkle time i * (1/2)

/-- z-component of star `i`: the pure blend, no twinkle. -/
noncomputable def accumStarZ (scattered targets : ℕ → ℝ) (time progress : ℝ) (i : ℕ) : ℝ :=
  scattered (i * 3 + 2) +
    (targets (i * 3 + 2) - scattered (i * 3 + 2)) * smoothstep (accumLocalP progress)

/-- C5 counterexample: at global progress 0 the Accumulation local progress
is 0, yet with all-zero scattered and target arrays, the live x-position
of star 1 at time 0 is `sin(1.7) * 0.1 > 0`, not its scattered x-position:
the twinkle term keeps the live position from equalling the dispersed set. -/
theorem particle_boundary_exact_cex :
    accumLocalP 0 = 0 ∧
    accumStarX (fun _ => 0) (fun _ => 0) 0 0 1 ≠ (fun _ => (0:ℝ)) (1 * 3) := by
  have hlp : accumLocalP 0 = 0 := by
    rw [accumLocalP]
    rw [max_eq_left]
    rw [min_le_iff]
    right
    norm_num
  refine ⟨hlp, ?_⟩
  have hs : 0 < Real.sin (17/10) :=
    Real.sin_pos_of_pos_of_lt_pi (by norm_num) (by linarith [Real.pi_gt_three])
  have hval : accumStarX (fun _ => 0) (fun _ => 0) 0 0 1 = Real.sin (17/10) * (1/10) := by
    rw [accumStarX, accumTwinkle, hlp]
    norm_num
  rw [hval]
  simp only []
  positivity

lemma smoothstep_zero {α : Type} [LinearOrderedField α] : smoothstep (0:α) = 0 := by
  rw [smoothstep]; ring

lemma smoothstep_one {α : Type} [LinearOrderedField α] : smoothstep (1:α) = 1 := by
  rw [smoothstep]; ring

/-- C5 amended: at local progress 0 the `InventoryObjects` position equals
exactly the scattered position and at local progress 1 exactly the grid
target (smoothstep fixes 0 and 1, and the position is the pure linear
blend); the `AccumulationStars` position satisfies the same boundary
identities up to its additive twinkle term — exactly the scattered/target
value plus `twinkle` on x, plus `twinkle * 0.5` on y, and exactly on z —
with `|twinkle| ≤ 0.1`. -/
theorem particle_boundary_blend (scat grid : ℕ → ℚ) (aS aT : ℕ → ℝ) (time : ℝ)
    (p : ℚ) (q : ℝ) (i k : ℕ) :
    (inventoryLocalP p = 0 → inventoryPosComp scat grid p k = scat k) ∧
    (inventoryLocalP p = 1 → inventoryPosComp scat grid p k = grid k) ∧
    (accumLocalP q = 0 →
      accumStarX aS aT time q i = aS (i * 3) + accumTwinkle time i ∧
      accumStarY aS aT time q i = aS (i * 3 + 1) + accumTwinkle time i * (1/2) ∧
      accumStarZ aS aT time q i = aS (i * 3 + 2)) ∧
    (accumLocalP q = 1 →
      accumStarX aS aT time q i = aT (i * 3) + accumTwinkle time i ∧
      accumStarY aS aT time q i = aT (i * 3 + 1) + accumTwinkle time i * (1/2) ∧
      accumStarZ aS aT time q i = aT (i * 3 + 2)) ∧
    |accumTwinkle time i| ≤ 1/10 := by
  refine ⟨?_, ?_, ?_, ?_, ?_⟩
  · intro h
    rw [inventoryPosComp, h, smoothstep_zero]; ring
  · intro h
    rw [inventoryPosComp, h, smoothstep_one]; ring
  · intro h
    rw [accumStarX, accumStarY, accumStarZ, h, smoothstep_zero]
    refine ⟨by ring, by ring, by ring⟩
  · intro h
    rw [accumStarX, accumStarY, accumStarZ, h, smoothstep_one]
    refine ⟨by ring, by ring, by ring⟩
  · rw [accumTwinkle, abs_mul]
    have h1 : |Real.sin (time * 2 + (i : ℝ) * (17/10))| ≤ 1 :=
      abs_le.mpr ⟨Real.neg_one_le_sin _, Real.sin_le_one _⟩
    calc |Real.sin (time * 2 + (i : ℝ) * (17/10))| * |(1:ℝ)/10|
        ≤ 1 * |(1:ℝ)/10| := mul_le_mul_of_nonneg_right h1 (abs_nonneg _)
      _ = 1/10 := by rw [one_mul, abs_of_nonneg]; norm_num

/-- Witness for C5 (amended): at global progress 0 the inventory particle
sits exactly at its scattered position, and at global progress 1 the
z-component of star 0 sits exactly at its target. -/
theorem particle_boundary_blend_witness :
    inventoryPosComp (fun _ => 5) (fun _ => 9) 0 0 = (fun _ => (5:ℚ)) 0 ∧
    accumStarZ (fun _ => 0) (fun _ => 4) 0 1 0 = (fun _ => (4:ℝ)) (0 * 3 + 2) :=
  ⟨(particle_boundary_blend (fun _ => 5) (fun _ => 9) (fun _ => 0) (fun _ => 4)
      0 0 1 0 0).1
      (by rw [inventoryLocalP]; rw [max_eq_left]; rw [min_le_iff]; right; norm_num),
   ((particle_boundary_blend (fun _ => 5) (fun _ => 9) (fun _ => 0) (fun _ => 4)
      0 0 1 0 0).2.2.2.1
      (by
        rw [accumLocalP]
        rw [max_eq_right]
        · rw [min_eq_left]
          norm_num
        · rw [le_min_iff]
          constructor <;> norm_num)).2.2⟩
